import Mathlib

/-!
Shallow embedding of the stream-to-track reduction core of `nmeagpx.py`
(class `Stack`, class `BoundingBox`, and the per-sentence processing loop of
`NMEATracker.reader`).

Modelling conventions:
* Times of day are integer seconds since 00:00:00 (the source uses
  `datetime.time`; all comparisons and differences in the source are exact
  time arithmetic, faithfully mirrored by integer seconds).
* Calendar dates are integer day numbers; `datetime.combine(day, time)` is
  `day * 86400 + time` (an absolute UTC instant in seconds).
* Latitude, longitude, altitude and HDOP are rationals (the source uses
  Python floats only for plain arithmetic, comparisons and decimal
  rounding on values of modest magnitude; the claims under study never
  depend on binary floating-point artefacts).
* The external library functions `planar` and `haversine` (from
  `pynmeagps.nmeahelpers`, not part of this repository) are abstracted as
  parameters collected in a `Geo` structure; every theorem quantifies over
  them or instantiates them with a concrete function.
* `print` calls, log strings, the `GAPS`/`GLITCHES` diagnostics lists and
  the `msg_stash` line numbers have no effect on control flow or on any
  claim; they are dropped (the stash itself, which the claims mention, is
  kept as a list of messages).
* `strim` in the source trims a decimal-string rendering of a coordinate
  before feeding the whole-file bounding box; it never changes which branch
  is taken and no claim observes the whole-file box values, so it is
  modelled as the identity.
-/

namespace NmeaGpx

/-- Fields of a parsed GGA sentence used by the tracker: time of day in
seconds, position, altitude, HDOP and fix quality. -/
structure GgaData where
  time : Int
  lat : ℚ
  lon : ℚ
  alt : ℚ
  HDOP : ℚ
  quality : Int
  deriving DecidableEq, Repr

/-- A fix as stored on the stack: the parsed message paired with the
absolute timestamp `dat = datetime.combine(thisday, msg.time)` computed by
the reader (`msg_item = (msg, dat)` in the source). -/
structure Fix where
  msg : GgaData
  dat : Int
  deriving DecidableEq, Repr

/-- A parsed NMEA message as seen by the reader loop: an RMC-equivalent
(carries a calendar date and a time of day), a GGA (position fix), or any
other sentence type (ignored by the loop). -/
inductive Msg where
  | rmc (date : Int) (time : Int)
  | gga (g : GgaData)
  | other
  deriving DecidableEq, Repr

/-- The two distance functions taken from the external `pynmeagps` library
(`planar` and `haversine`), abstracted: each maps
(lat1, lon1, lat2, lon2) to a distance in metres. -/
structure Geo where
  planar : ℚ → ℚ → ℚ → ℚ → ℚ
  haversine : ℚ → ℚ → ℚ → ℚ → ℚ

/-- JIGGLE = 3.4/5 metres: anything within this is considered the same
point. -/
def JIGGLE : ℚ := 3.4 / 5

/-- STACK_MINUTES = 90: how long we wait before flushing the stack. -/
def STACK_MINUTES : Int := 90

/-- MAXSTACK = 200: maximum number of points amalgamated into one stack. -/
def MAXSTACK : Nat := 200

/-- MIDNIGHT = time(0,0,0,0), as seconds. -/
def MIDNIGHT : Int := 0

/-- NEAR_DAYLENGTH = timedelta(hours=23), as seconds. -/
def NEAR_DAYLENGTH : Int := 23 * 3600

/-- ONE_MINUTE = timedelta(minutes=1), as seconds. -/
def ONE_MINUTE : Int := 60

/-- EIGHT_MINUTES = timedelta(minutes=8), as seconds. -/
def EIGHT_MINUTES : Int := 8 * 60

/-- `BoundingBox.__init__`: note the source initialises `_maxlon` to `0`
(not to `-180`), while the other three fields are at their sentinel
extremes. -/
structure BoundingBox where
  minlat : ℚ
  maxlat : ℚ
  minlon : ℚ
  maxlon : ℚ
  deriving DecidableEq, Repr

namespace BoundingBox

/-- The constructor values from the source: 90, -90, 180, 0. -/
def init : BoundingBox := { minlat := 90, maxlat := -90, minlon := 180, maxlon := 0 }

/-- `BoundingBox.update(lat, lon)`: four independent widening comparisons,
in source order. -/
def update (b : BoundingBox) (lat lon : ℚ) : BoundingBox :=
  let b1 := if lat > b.maxlat then { b with maxlat := lat } else b
  let b2 := if lat < b1.minlat then { b1 with minlat := lat } else b1
  let b3 := if lon > b2.maxlon then { b2 with maxlon := lon } else b2
  if lon < b3.minlon then { b3 with minlon := lon } else b3

/-- `BoundingBox.centroid()`: midpoints of the stored bounds. -/
def centroid (b : BoundingBox) : ℚ × ℚ :=
  ((b.maxlat + b.minlat) / 2, (b.maxlon + b.minlon) / 2)

/-- Folding `update` over a list of (lat, lon) points starting from the
freshly constructed box. -/
def scan (pts : List (ℚ × ℚ)) : BoundingBox :=
  pts.foldl (fun b p => b.update p.1 p.2) init

end BoundingBox

/-- The representative point returned by `Stack.median()`:
`(lat, lon, alt, dat, quality, hdop)`. -/
structure Rep where
  lat : ℚ
  lon : ℚ
  alt : ℚ
  dat : Int
  quality : Int
  hdop : ℚ
  deriving DecidableEq, Repr

/-- Rounding to `n` decimal places, modelling the source's
`float(f"{x:.6f}")` and `float(f"{x:.1f}")` round-trips (decimal rounding
to the nearest multiple of 10^-n; the source's IEEE-double formatting
agrees with this on every value away from an exact decimal tie, and all
theorems below stay away from ties). -/
def roundTo (n : Nat) (q : ℚ) : ℚ :=
  (round (q * (10 : ℚ) ^ n) : ℤ) / (10 : ℚ) ^ n

/-- The `Stack` class: bounded buffer of fixes with its own bounding box,
the timestamp of the first pushed fix (`_first`), and the diagnostic
counter bumped by `is_full`. -/
structure Stack where
  max_size : Nat
  items : List Fix
  box : BoundingBox
  first : Option Int
  full_count : Nat
  deriving DecidableEq, Repr

namespace Stack

/-- `Stack(max_size)`: empty stack. -/
def new (m : Nat) : Stack :=
  { max_size := m, items := [], box := BoundingBox.init, first := none, full_count := 0 }

/-- `Stack.is_empty()`. -/
def is_empty (s : Stack) : Bool :=
  s.items.length = 0

/-- `Stack.is_full()`: besides answering the query it increments the
`full_count` diagnostic counter when full (and prints a diagnostic line,
which also reads `first_date`; the Tracker only ever constructs stacks of
positive capacity, so a full stack is non-empty there). -/
def is_full_eff (s : Stack) : Bool × Stack :=
  if s.items.length = s.max_size then
    (true, { s with full_count := s.full_count + 1 })
  else
    (false, s)

/-- `Stack.push(msg_item)`: re-checks `is_full` (printing an overflow
message and dropping the item when full), records `_first` on the first
push, widens the box, appends the item. -/
def push (s : Stack) (f : Fix) : Stack :=
  let r := s.is_full_eff
  if r.1 then r.2
  else
    let s1 := r.2
    { s1 with
      first := some (s1.first.getD f.dat)
      box := s1.box.update f.msg.lat f.msg.lon
      items := s1.items ++ [f] }

/-- The distance-from-centroid computation inside `it_fits`: planar
approximation, replaced by the haversine value when the planar estimate
exceeds 50 m. -/
def centroid_dist (geo : Geo) (s : Stack) (g : GgaData) : ℚ :=
  let c := s.box.centroid
  let d := geo.planar c.1 c.2 g.lat g.lon
  if d > 50 then geo.haversine c.1 c.2 g.lat g.lon else d

/-- `Stack.it_fits(msg_item)`: full check (with `full_count` side effect),
unconditional acceptance into an empty stack, quality homogeneity against
`items[0]`, the 90-minute window against `_first`, and the jiggle check
against the box centroid.  (The `dat < last_dat` time-travel branch in the
source only prints and is dropped.  When the stack is non-empty the source
reads `self._first`, which is always set; `getD f.dat` supplies an inert
default for the unreachable `none` case.) -/
def it_fits (geo : Geo) (s : Stack) (f : Fix) : Bool × Stack :=
  let r := s.is_full_eff
  if r.1 then (false, r.2)
  else
    let s1 := r.2
    match s1.items with
    | [] => (true, s1.push f)
    | fm :: _ =>
      if f.msg.quality = fm.msg.quality then
        let since := f.dat - s1.first.getD f.dat
        if since > STACK_MINUTES * 60 then (false, s1)
        else if s1.centroid_dist geo f.msg > JIGGLE then (false, s1)
        else (true, s1.push f)
      else (false, s1)

/-- `Stack.flush()`: clears the items, `_first` and the box, keeping
`full_count` (the reset of `full_count` is commented out in the source)
and the running `stack_max` global is dropped (print-only). -/
def flush (s : Stack) : Stack :=
  { s with items := [], first := none, box := BoundingBox.init }

/-- `Stack.median()`: one pass accumulating sums of lat, lon, alt and the
running maximum HDOP (initial accumulator 0, strict-greater update), then
the first member's quality; `dat` is the loop variable left holding the
last member's timestamp.  Lat/lon are rounded to 6 decimal places and alt
to 1, mirroring `float(f"...")`.  On an empty stack the source raises
(`self._items[0]` → IndexError); this is modelled by `none`. -/
def median (s : Stack) : Option Rep :=
  match s.items with
  | [] => none
  | fm :: rest =>
    let items := fm :: rest
    let num : ℚ := (items.length : ℚ)
    let lat := items.foldl (fun acc i => acc + i.msg.lat) 0
    let lon := items.foldl (fun acc i => acc + i.msg.lon) 0
    let alt := items.foldl (fun acc i => acc + i.msg.alt) 0
    let hdop := items.foldl (fun acc i => if i.msg.HDOP > acc then i.msg.HDOP else acc) 0
    let dat := (items.getLast (List.cons_ne_nil fm rest)).dat
    some
      { lat := roundTo 6 (lat / num)
        lon := roundTo 6 (lon / num)
        alt := roundTo 1 (alt / num)
        dat := dat
        quality := fm.msg.quality
        hdop := hdop }

/-- Well-formedness of a stack state as maintained by the Tracker:
`_first` is `None` exactly on an empty stack and otherwise holds the
timestamp of the oldest member (`items[0]`, the first one pushed). -/
def WF (s : Stack) : Prop :=
  match s.items with
  | [] => s.first = none
  | fm :: _ => s.first = some fm.dat

instance (s : Stack) : Decidable s.WF := by
  unfold WF
  match s.items with
  | [] => exact inferInstanceAs (Decidable (s.first = none))
  | fm :: _ => exact inferInstanceAs (Decidable (s.first = some fm.dat))

/-- The rejection condition of claim C2, phrased from the specification's
wording: full, or non-empty with a quality mismatch against the first
member, or more than 90 minutes after the first member's timestamp, or
further than the jiggle threshold from the cluster centroid. -/
def rejectCond (geo : Geo) (s : Stack) (f : Fix) : Prop :=
  s.items.length = s.max_size ∨
    match s.items with
    | [] => False
    | fm :: _ =>
      f.msg.quality ≠ fm.msg.quality ∨
      f.dat - fm.dat > STACK_MINUTES * 60 ∨
      s.centroid_dist geo f.msg > JIGGLE

end Stack

/-- One emitted track point together with the cluster members it averaged:
when `it_fits` rejects a fix the reader calls `median()` on the current
stack, flushes it and emits the representative point.  The member list is
a history observation (it records `self._gpsstack._items` at the instant
of the flush) and has no effect on behaviour. -/
structure FlushRec where
  members : List Fix
  point : Rep
  deriving DecidableEq, Repr

/-- The state threaded through `NMEATracker.reader`: the held date
`self._thisday`, the loop-local `prev_time` (initially `MIDNIGHT`) and
`first_GGA` flag, the cluster `self._gpsstack`, the whole-file bounding
box `bb`, the emitted flushes, the `msg_stash` of discarded sentences, and
a history list of every fix pushed to the cluster (`accepted`, a
specification observation with no effect on behaviour). -/
structure RState where
  thisday : Option Int
  prev_time : Int
  first_GGA : Bool
  gpsstack : Stack
  bb : BoundingBox
  flushes : List FlushRec
  stash : List Msg
  accepted : List Fix
  deriving DecidableEq, Repr

/-- The reader state at the top of the loop: no date yet, `prev_time`
at midnight, `first_GGA` set, a fresh stack of capacity MAXSTACK. -/
def RState.init : RState :=
  { thisday := none
    prev_time := MIDNIGHT
    first_GGA := true
    gpsstack := Stack.new MAXSTACK
    bb := BoundingBox.init
    flushes := []
    stash := []
    accepted := [] }

/-- Lines 418–453 of the source: combine the held day with the sentence
time, record `prev_time`, widen the whole-file box, offer the fix to the
stack; on rejection take the median of the (unchanged) stack, flush it,
push the rejected fix onto the fresh stack and emit the representative
point.  The `none` branch of `median` is unreachable (an empty cluster
never rejects) and mirrors the IndexError the source would raise. -/
def acceptFix (geo : Geo) (st : RState) (d : Int) (g : GgaData) : RState :=
  let fx : Fix := { msg := g, dat := d * 86400 + g.time }
  let r := st.gpsstack.it_fits geo fx
  if r.1 then
    { st with
      prev_time := g.time
      bb := st.bb.update g.lat g.lon
      gpsstack := r.2
      accepted := st.accepted ++ [fx] }
  else
    match r.2.median with
    | some rep =>
      { st with
        prev_time := g.time
        bb := st.bb.update g.lat g.lon
        gpsstack := (r.2.flush).push fx
        flushes := st.flushes ++ [{ members := r.2.items, point := rep }]
        accepted := st.accepted ++ [fx] }
    | none =>
      { st with
        prev_time := g.time
        bb := st.bb.update g.lat g.lon
        gpsstack := (r.2.flush).push fx
        accepted := st.accepted ++ [fx] }

/-- Lines 387–419 of the source: the backward-time handling for a GGA that
passed (or was exempt from) the first-GGA checks.  A backward jump of less
than one minute, or less than eight minutes, stashes the sentence; a
larger backward jump increments the held day (midnight rollover) and the
fix is accepted under the new date; otherwise the fix is accepted
directly. -/
def processTime (geo : Geo) (st : RState) (d : Int) (g : GgaData) : RState :=
  if g.time < st.prev_time then
    if st.prev_time - g.time < ONE_MINUTE then
      { st with stash := st.stash ++ [Msg.gga g] }
    else if st.prev_time - g.time < EIGHT_MINUTES then
      { st with stash := st.stash ++ [Msg.gga g] }
    else
      let d1 := d + 1
      acceptFix geo { st with thisday := some d1 } d1 g
  else
    acceptFix geo st d g

/-- One iteration of the reader loop (lines 340–456 of the source).
An RMC-equivalent sets `first_GGA`, establishes the held date on first
sight, and otherwise only logs (the source deliberately never updates
`self._thisday` from a later date-bearing sentence; see the comment at
line 357).  A GGA is stashed while no date is held; the first GGA after an
RMC is stashed when its time is backward of `prev_time` (by any amount) or
more than NEAR_DAYLENGTH ahead of it; otherwise the backward-time handling
runs. -/
def step (geo : Geo) (st : RState) (m : Msg) : RState :=
  match m with
  | Msg.other => st
  | Msg.rmc date _t =>
    let st1 := { st with first_GGA := true }
    match st1.thisday with
    | none => { st1 with thisday := some date }
    | some _ => st1
  | Msg.gga g =>
    match st.thisday with
    | none => { st with stash := st.stash ++ [m] }
    | some d =>
      if st.first_GGA then
        let st1 := { st with first_GGA := false }
        if g.time < st1.prev_time then
          { st1 with stash := st1.stash ++ [m] }
        else if g.time - st1.prev_time > NEAR_DAYLENGTH then
          { st1 with stash := st1.stash ++ [m] }
        else
          processTime geo st1 d g
      else
        processTime geo st d g

/-- `NMEATracker.reader`: fold the per-sentence step over the parsed
message stream.  No flush is performed after the loop: the source writes
the GPX trailer and returns, leaving `self._gpsstack` unread. -/
def reader (geo : Geo) (msgs : List Msg) : RState :=
  msgs.foldl (step geo) RState.init

/-- A geometry in which every pair of points is at distance 0 (used to
drive concrete runs in which all fixes are spatially coincident). -/
def geo0 : Geo :=
  { planar := fun _ _ _ _ => 0, haversine := fun _ _ _ _ => 0 }

/-- A GGA sentence at time `t` (seconds of day) at the origin with HDOP 1
and fix quality 1, used by the concrete streams below. -/
def gg (t : Int) : GgaData :=
  { time := t, lat := 0, lon := 0, alt := 0, HDOP := 1, quality := 1 }

/-- Stream for the end-of-stream behaviour: one date sentence, then one
fix at 10:00:10 that is accepted into the cluster and never flushed. -/
def msgsEof : List Msg :=
  [Msg.rmc 100 36000, Msg.gga (gg 36010)]

/-- The midnight-rollover test stream of the specification: times
23:59:50 (date-bearing, day 100), 23:59:58, 00:00:05, 00:00:12. -/
def msgsRoll : List Msg :=
  [Msg.rmc 100 86390, Msg.gga (gg 86398), Msg.gga (gg 5), Msg.gga (gg 12)]

/-- Stream with a single 30-second backward jump inside the one-minute
grace window: 10:00:00 (date), 10:00:10, 10:01:00, 10:00:30 (backward),
10:01:05. -/
def msgsGrace : List Msg :=
  [Msg.rmc 100 36000, Msg.gga (gg 36010), Msg.gga (gg 36060),
   Msg.gga (gg 36030), Msg.gga (gg 36065)]

/-- Stream in which the first GGA (12:00:00) follows an RMC whose own
time of day is 23:30:00, i.e. the GGA is backward of the date sentence's
clock by 11.5 hours. -/
def msgsSkew : List Msg :=
  [Msg.rmc 100 84600, Msg.gga (gg 43200)]

/-- Stream in which a second date-bearing sentence reports day 101 while
day 100 is held and no rollover has been inferred. -/
def msgsNewDate : List Msg :=
  [Msg.rmc 100 36000, Msg.gga (gg 36010), Msg.rmc 101 36020, Msg.gga (gg 36030)]

/-- A fix at latitude `la` with timestamp `d` (longitude, altitude 0,
HDOP 1, quality 1). -/
def mkFix (la : ℚ) (d : Int) : Fix :=
  { msg := { time := 0, lat := la, lon := 0, alt := 0, HDOP := 1, quality := 1 }, dat := d }

/-- A three-member cluster whose latitudes are 0, 0 and 10^-6, so the
exact mean latitude 1/3000000 is not representable in 6 decimal places. -/
def stackTri : Stack :=
  { max_size := 200
    items := [mkFix 0 0, mkFix 0 1, mkFix (1 / 1000000) 2]
    box := (BoundingBox.init.update 0 0).update (1 / 1000000) 0
    first := some 0
    full_count := 0 }

/-- A one-member cluster holding a fix of quality 1, used to witness
rejection behaviour against a quality-0 fix. -/
def stackOne : Stack :=
  { max_size := 200
    items := [mkFix 0 0]
    box := BoundingBox.init.update 0 0
    first := some 0
    full_count := 0 }

/-- A quality-0 fix (every other field 0), rejected by any non-empty
cluster of quality-1 fixes. -/
def fix0 : Fix :=
  { msg := { time := 0, lat := 0, lon := 0, alt := 0, HDOP := 1, quality := 0 }, dat := 1 }

/-- A mid-stream reader state holding day 5 at 11:06:40 with the
first-GGA suspicion flag clear, used to witness the backward-time rules. -/
def stW : RState :=
  { thisday := some 5
    prev_time := 40000
    first_GGA := false
    gpsstack := Stack.new MAXSTACK
    bb := BoundingBox.init
    flushes := []
    stash := []
    accepted := [] }

/-- The same mid-stream state with the first-GGA suspicion flag set (as it
is immediately after a date-bearing sentence). -/
def stV : RState :=
  { thisday := some 5
    prev_time := 40000
    first_GGA := true
    gpsstack := Stack.new MAXSTACK
    bb := BoundingBox.init
    flushes := []
    stash := []
    accepted := [] }

/-- The invariant connecting the history of pushed fixes to the emitted
flushes: every fix ever accepted is either in the member list of exactly
one emitted flush or still in the current cluster, in stream order. -/
def Conserved (st : RState) : Prop :=
  st.accepted = (st.flushes.map FlushRec.members).flatten ++ st.gpsstack.items

/-- The reachable-state invariant used for the conservation proof: the
cluster capacity is positive (the Tracker always builds `Stack(MAXSTACK)`)
and the conservation equation holds. -/
def Inv (st : RState) : Prop :=
  0 < st.gpsstack.max_size ∧ Conserved st

/-- Containment of a point in a bounding box. -/
def BoundingBox.contains (b : BoundingBox) (p : ℚ × ℚ) : Prop :=
  b.minlat ≤ p.1 ∧ p.1 ≤ b.maxlat ∧ b.minlon ≤ p.2 ∧ p.2 ≤ b.maxlon

namespace Stack

theorem is_full_eff_snd (s : Stack) :
    s.is_full_eff.2.items = s.items ∧ s.is_full_eff.2.box = s.box ∧
      s.is_full_eff.2.first = s.first ∧ s.is_full_eff.2.max_size = s.max_size := by
  unfold is_full_eff
  split <;> exact ⟨rfl, rfl, rfl, rfl⟩

theorem push_max (s : Stack) (f : Fix) : (s.push f).max_size = s.max_size := by
  by_cases h : s.items.length = s.max_size <;> simp [push, is_full_eff, h]

theorem push_items (s : Stack) (f : Fix) (h : s.items.length ≠ s.max_size) :
    (s.push f).items = s.items ++ [f] := by
  simp [push, is_full_eff, h]

theorem it_fits_cases (geo : Geo) (s : Stack) (f : Fix) :
    ((s.it_fits geo f).1 = false ∧ (s.it_fits geo f).2 = s.is_full_eff.2) ∨
      ((s.it_fits geo f).1 = true ∧ (s.it_fits geo f).2 = s.push f ∧
        s.items.length ≠ s.max_size) := by
  by_cases hfull : s.items.length = s.max_size
  · left
    constructor <;> simp [it_fits, is_full_eff, hfull]
  · cases hitems : s.items with
    | nil =>
      rw [hitems] at hfull
      simp only [List.length_nil] at hfull
      right
      refine ⟨?_, ?_, by simpa using hfull⟩ <;>
        simp [it_fits, is_full_eff, hfull, hitems]
    | cons fm tl =>
      rw [hitems] at hfull
      simp only [List.length_cons] at hfull
      by_cases hq : f.msg.quality = fm.msg.quality
      · by_cases hsince : f.dat - s.first.getD f.dat > STACK_MINUTES * 60
        · left
          constructor <;> simp [it_fits, is_full_eff, hfull, hitems, hq, hsince]
        · by_cases hdist : s.centroid_dist geo f.msg > JIGGLE
          · left
            constructor <;>
              simp [it_fits, is_full_eff, hfull, hitems, hq, hsince, hdist]
          · right
            refine ⟨?_, ?_, by simpa using hfull⟩ <;>
              simp [it_fits, is_full_eff, hfull, hitems, hq, hsince, hdist]
      · left
        constructor <;> simp [it_fits, is_full_eff, hfull, hitems, hq]

theorem it_fits_false_frame (geo : Geo) (s : Stack) (f : Fix)
    (h : (s.it_fits geo f).1 = false) :
    (s.it_fits geo f).2.items = s.items ∧ (s.it_fits geo f).2.box = s.box ∧
      (s.it_fits geo f).2.first = s.first ∧
      (s.it_fits geo f).2.max_size = s.max_size := by
  rcases it_fits_cases geo s f with ⟨_, h2⟩ | ⟨h1, _, _⟩
  · rw [h2]
    exact is_full_eff_snd s
  · rw [h1] at h
    exact Bool.noConfusion h

theorem it_fits_true_items (geo : Geo) (s : Stack) (f : Fix)
    (h : (s.it_fits geo f).1 = true) :
    (s.it_fits geo f).2.items = s.items ++ [f] := by
  rcases it_fits_cases geo s f with ⟨h1, _⟩ | ⟨_, h2, hfull⟩
  · rw [h1] at h
    exact Bool.noConfusion h
  · rw [h2]
    exact push_items s f hfull

theorem it_fits_snd_max (geo : Geo) (s : Stack) (f : Fix) :
    (s.it_fits geo f).2.max_size = s.max_size := by
  rcases it_fits_cases geo s f with ⟨_, h2⟩ | ⟨_, h2, _⟩
  · rw [h2]
    exact (is_full_eff_snd s).2.2.2
  · rw [h2]
    exact push_max s f

theorem it_fits_empty_true (geo : Geo) (s : Stack) (f : Fix)
    (h0 : s.items = []) (hpos : 0 < s.max_size) :
    (s.it_fits geo f).1 = true := by
  have hne : ¬ (0 = s.max_size) := by omega
  simp [it_fits, is_full_eff, h0, hne]

theorem WF_first (s : Stack) (fm : Fix) (tl : List Fix) (hwf : s.WF)
    (hitems : s.items = fm :: tl) : s.first = some fm.dat := by
  unfold WF at hwf
  rw [hitems] at hwf
  exact hwf

theorem it_fits_false_iff (geo : Geo) (s : Stack) (f : Fix) (hwf : s.WF) :
    ((s.it_fits geo f).1 = false) ↔ s.rejectCond geo f := by
  by_cases hfull : s.items.length = s.max_size
  · simp [it_fits, is_full_eff, rejectCond, hfull]
  · cases hitems : s.items with
    | nil =>
      rw [hitems] at hfull
      simp only [List.length_nil] at hfull
      simp [it_fits, is_full_eff, rejectCond, hitems, hfull]
    | cons fm tl =>
      have hfi := WF_first s fm tl hwf hitems
      rw [hitems] at hfull
      simp only [List.length_cons] at hfull
      by_cases hq : f.msg.quality = fm.msg.quality
      · by_cases hsince : f.dat - fm.dat > STACK_MINUTES * 60
        · simp [it_fits, is_full_eff, rejectCond, hitems, hfull, hq, hsince, hfi]
        · by_cases hdist : s.centroid_dist geo f.msg > JIGGLE
          · simp [it_fits, is_full_eff, rejectCond, hitems, hfull, hq, hsince, hdist, hfi]
          · simp [it_fits, is_full_eff, rejectCond, hitems, hfull, hq, hsince, hdist, hfi]
      · simp [it_fits, is_full_eff, rejectCond, hitems, hfull, hq]

theorem median_none_iff (s : Stack) : s.median = none ↔ s.items = [] := by
  unfold median
  cases h : s.items <;> simp [h]

theorem flush_items (s : Stack) : s.flush.items = [] := rfl

theorem flush_max (s : Stack) : s.flush.max_size = s.max_size := rfl

end Stack

theorem foldl_add_eq (f : Fix → ℚ) (a : ℚ) (l : List Fix) :
    l.foldl (fun acc i => acc + f i) a = a + (l.map f).sum := by
  induction l generalizing a with
  | nil => simp
  | cons x xs ih =>
    simp only [List.foldl_cons, List.map_cons, List.sum_cons]
    rw [ih]
    ring

theorem if_gt_eq_max (a b : ℚ) : (if b > a then b else a) = max a b := by
  rcases le_or_lt b a with h | h
  · rw [if_neg (not_lt.mpr h), max_eq_left h]
  · rw [if_pos h, max_eq_right h.le]

theorem foldl_hdop_eq (a : ℚ) (l : List Fix) :
    l.foldl (fun acc i => if i.msg.HDOP > acc then i.msg.HDOP else acc) a
      = (l.map fun i => i.msg.HDOP).foldl max a := by
  induction l generalizing a with
  | nil => rfl
  | cons x xs ih =>
    simp only [List.foldl_cons, List.map_cons]
    rw [if_gt_eq_max, ih]

theorem le_foldl_max (a : ℚ) (l : List ℚ) : a ≤ l.foldl max a := by
  induction l generalizing a with
  | nil => simp
  | cons x xs ih => exact le_trans (le_max_left a x) (ih (max a x))

theorem foldl_max_ge_mem (a : ℚ) (l : List ℚ) : ∀ x ∈ l, x ≤ l.foldl max a := by
  induction l generalizing a with
  | nil => simp
  | cons y ys ih =>
    intro x hx
    rcases List.mem_cons.mp hx with rfl | hmem
    · exact le_trans (le_max_right a x) (le_foldl_max (max a x) ys)
    · exact ih (max a y) x hmem

theorem foldl_max_mem (a : ℚ) (l : List ℚ) : l.foldl max a = a ∨ l.foldl max a ∈ l := by
  induction l generalizing a with
  | nil => left; rfl
  | cons y ys ih =>
    rcases ih (max a y) with h | h
    · rcases max_cases a y with ⟨he, _⟩ | ⟨he, _⟩
      · left
        rw [List.foldl_cons, h, he]
      · right
        rw [List.foldl_cons, h, he]
        exact List.mem_cons_self y ys
    · right
      exact List.mem_cons_of_mem y h

theorem hdop_max_mem (l : List ℚ) (hne : l ≠ []) (hnn : ∀ x ∈ l, 0 ≤ x) :
    l.foldl max 0 ∈ l := by
  rcases foldl_max_mem 0 l with h | h
  · cases l with
    | nil => exact absurd rfl hne
    | cons y ys =>
      have h1 : y ≤ (y :: ys).foldl max 0 :=
        foldl_max_ge_mem 0 (y :: ys) y (List.mem_cons_self y ys)
      have h2 : 0 ≤ y := hnn y (List.mem_cons_self y ys)
      have h3 : y = 0 := le_antisymm (h ▸ h1) h2
      rw [h, ← h3]
      exact List.mem_cons_self y ys
  · exact h

namespace BoundingBox

theorem update_eq (b : BoundingBox) (la lo : ℚ) :
    b.update la lo =
      { minlat := if la < b.minlat then la else b.minlat
        maxlat := if la > b.maxlat then la else b.maxlat
        minlon := if lo < b.minlon then lo else b.minlon
        maxlon := if lo > b.maxlon then lo else b.maxlon } := by
  by_cases h1 : la > b.maxlat <;> by_cases h2 : la < b.minlat <;>
    by_cases h3 : lo > b.maxlon <;> by_cases h4 : lo < b.minlon <;>
    simp [update, h1, h2, h3, h4]

theorem update_contains_self (b : BoundingBox) (la lo : ℚ) :
    (b.update la lo).contains (la, lo) := by
  rw [update_eq]
  unfold contains
  dsimp only
  refine ⟨?_, ?_, ?_, ?_⟩ <;> split <;> linarith

theorem contains_update (b : BoundingBox) (p : ℚ × ℚ) (la lo : ℚ)
    (h : b.contains p) : (b.update la lo).contains p := by
  rw [update_eq]
  obtain ⟨c1, c2, c3, c4⟩ := h
  unfold contains
  dsimp only
  refine ⟨?_, ?_, ?_, ?_⟩ <;> split <;> linarith

theorem foldl_update_keeps (pts : List (ℚ × ℚ)) (b : BoundingBox) (p : ℚ × ℚ)
    (h : b.contains p) :
    (pts.foldl (fun bx q => bx.update q.1 q.2) b).contains p := by
  induction pts generalizing b with
  | nil => exact h
  | cons q qs ih => exact ih (b.update q.1 q.2) (contains_update b p q.1 q.2 h)

theorem foldl_update_contains (pts : List (ℚ × ℚ)) (b : BoundingBox) :
    ∀ p ∈ pts, (pts.foldl (fun bx q => bx.update q.1 q.2) b).contains p := by
  induction pts generalizing b with
  | nil => simp
  | cons q qs ih =>
    intro p hp
    rcases List.mem_cons.mp hp with rfl | hmem
    · exact foldl_update_keeps qs (b.update p.1 p.2) p
        (by simpa using update_contains_self b p.1 p.2)
    · exact ih (b.update q.1 q.2) p hmem

end BoundingBox

theorem acceptFix_accept (geo : Geo) (st : RState) (d : Int) (g : GgaData)
    (h1 : (st.gpsstack.it_fits geo { msg := g, dat := d * 86400 + g.time }).1 = true) :
    (acceptFix geo st d g).gpsstack
        = (st.gpsstack.it_fits geo { msg := g, dat := d * 86400 + g.time }).2 ∧
      (acceptFix geo st d g).flushes = st.flushes ∧
      (acceptFix geo st d g).accepted
        = st.accepted ++ [{ msg := g, dat := d * 86400 + g.time }] := by
  simp [acceptFix, h1]

theorem acceptFix_reject_some (geo : Geo) (st : RState) (d : Int) (g : GgaData)
    (rep : Rep)
    (h1 : (st.gpsstack.it_fits geo { msg := g, dat := d * 86400 + g.time }).1 = false)
    (hm : ((st.gpsstack.it_fits geo { msg := g, dat := d * 86400 + g.time }).2).median
        = some rep) :
    (acceptFix geo st d g).gpsstack
        = (((st.gpsstack.it_fits geo { msg := g, dat := d * 86400 + g.time }).2).flush).push
            { msg := g, dat := d * 86400 + g.time } ∧
      (acceptFix geo st d g).flushes
        = st.flushes ++
            [{ members := (st.gpsstack.it_fits geo { msg := g, dat := d * 86400 + g.time }).2.items
               point := rep }] ∧
      (acceptFix geo st d g).accepted
        = st.accepted ++ [{ msg := g, dat := d * 86400 + g.time }] := by
  simp [acceptFix, h1, hm]

theorem acceptFix_reject_none (geo : Geo) (st : RState) (d : Int) (g : GgaData)
    (h1 : (st.gpsstack.it_fits geo { msg := g, dat := d * 86400 + g.time }).1 = false)
    (hm : ((st.gpsstack.it_fits geo { msg := g, dat := d * 86400 + g.time }).2).median
        = none) :
    (acceptFix geo st d g).gpsstack
        = (((st.gpsstack.it_fits geo { msg := g, dat := d * 86400 + g.time }).2).flush).push
            { msg := g, dat := d * 86400 + g.time } ∧
      (acceptFix geo st d g).flushes = st.flushes ∧
      (acceptFix geo st d g).accepted
        = st.accepted ++ [{ msg := g, dat := d * 86400 + g.time }] := by
  simp [acceptFix, h1, hm]

theorem acceptFix_fields (geo : Geo) (st : RState) (d : Int) (g : GgaData) :
    (acceptFix geo st d g).thisday = st.thisday ∧
      (acceptFix geo st d g).prev_time = g.time ∧
      (acceptFix geo st d g).first_GGA = st.first_GGA ∧
      (acceptFix geo st d g).stash = st.stash ∧
      (acceptFix geo st d g).accepted
        = st.accepted ++ [{ msg := g, dat := d * 86400 + g.time }] := by
  by_cases h1 : (st.gpsstack.it_fits geo { msg := g, dat := d * 86400 + g.time }).1 = true
  · simp [acceptFix, h1]
  · rw [Bool.not_eq_true] at h1
    cases hm : ((st.gpsstack.it_fits geo { msg := g, dat := d * 86400 + g.time }).2).median <;>
      simp [acceptFix, h1, hm]

theorem acceptFix_inv (geo : Geo) (st : RState) (d : Int) (g : GgaData)
    (h : Inv st) : Inv (acceptFix geo st d g) := by
  obtain ⟨hmax, hc⟩ := h
  by_cases h1 : (st.gpsstack.it_fits geo { msg := g, dat := d * 86400 + g.time }).1 = true
  · obtain ⟨hg, hf, ha⟩ := acceptFix_accept geo st d g h1
    have hit := Stack.it_fits_true_items geo st.gpsstack _ h1
    have hms := Stack.it_fits_snd_max geo st.gpsstack { msg := g, dat := d * 86400 + g.time }
    constructor
    · rw [hg, hms]
      exact hmax
    · unfold Conserved at hc ⊢
      rw [ha, hf, hg, hit, hc, List.append_assoc]
  · rw [Bool.not_eq_true] at h1
    obtain ⟨hfi, _, _, hfm⟩ := Stack.it_fits_false_frame geo st.gpsstack _ h1
    have hlen :
        (((st.gpsstack.it_fits geo { msg := g, dat := d * 86400 + g.time }).2).flush).items.length
          ≠ (((st.gpsstack.it_fits geo { msg := g, dat := d * 86400 + g.time }).2).flush).max_size := by
      rw [Stack.flush_items, Stack.flush_max, hfm]
      simpa using Nat.ne_of_lt hmax
    have hpi := Stack.push_items _ { msg := g, dat := d * 86400 + g.time } hlen
    rw [Stack.flush_items, List.nil_append] at hpi
    have hpm := Stack.push_max
      ((st.gpsstack.it_fits geo { msg := g, dat := d * 86400 + g.time }).2).flush
      { msg := g, dat := d * 86400 + g.time }
    rw [Stack.flush_max, hfm] at hpm
    cases hm : ((st.gpsstack.it_fits geo { msg := g, dat := d * 86400 + g.time }).2).median with
    | none =>
      obtain ⟨hg, hf, ha⟩ := acceptFix_reject_none geo st d g h1 hm
      have hsitems : st.gpsstack.items = [] := by
        rw [← hfi]
        exact (Stack.median_none_iff _).mp hm
      constructor
      · rw [hg, hpm]
        exact hmax
      · unfold Conserved at hc ⊢
        rw [ha, hf, hg, hpi, hc, hsitems, List.append_nil]
    | some rep =>
      obtain ⟨hg, hf, ha⟩ := acceptFix_reject_some geo st d g rep h1 hm
      constructor
      · rw [hg, hpm]
        exact hmax
      · unfold Conserved at hc ⊢
        rw [ha, hf, hg, hpi, hc, hfi]
        simp [List.append_assoc]

theorem processTime_backward_small (geo : Geo) (st : RState) (d : Int) (g : GgaData)
    (h2 : g.time < st.prev_time) (h3 : st.prev_time - g.time < EIGHT_MINUTES) :
    processTime geo st d g = { st with stash := st.stash ++ [Msg.gga g] } := by
  by_cases ha : st.prev_time - g.time < ONE_MINUTE <;> simp [processTime, h2, h3, ha]

theorem processTime_rollover (geo : Geo) (st : RState) (d : Int) (g : GgaData)
    (h2 : g.time < st.prev_time) (h3 : EIGHT_MINUTES ≤ st.prev_time - g.time) :
    processTime geo st d g = acceptFix geo { st with thisday := some (d + 1) } (d + 1) g := by
  have ha : ¬ st.prev_time - g.time < ONE_MINUTE := by
    unfold ONE_MINUTE
    unfold EIGHT_MINUTES at h3
    omega
  have hb : ¬ st.prev_time - g.time < EIGHT_MINUTES := by omega
  simp [processTime, h2, ha, hb]

theorem processTime_forward (geo : Geo) (st : RState) (d : Int) (g : GgaData)
    (h2 : ¬ g.time < st.prev_time) :
    processTime geo st d g = acceptFix geo st d g := by
  simp [processTime, h2]

theorem processTime_inv (geo : Geo) (st : RState) (d : Int) (g : GgaData)
    (h : Inv st) : Inv (processTime geo st d g) := by
  by_cases h2 : g.time < st.prev_time
  · by_cases h3 : st.prev_time - g.time < EIGHT_MINUTES
    · rw [processTime_backward_small geo st d g h2 h3]
      exact ⟨h.1, h.2⟩
    · rw [processTime_rollover geo st d g h2 (by omega)]
      exact acceptFix_inv geo _ (d + 1) g ⟨h.1, h.2⟩
  · rw [processTime_forward geo st d g h2]
    exact acceptFix_inv geo st d g h

theorem step_inv (geo : Geo) (st : RState) (m : Msg) (h : Inv st) :
    Inv (step geo st m) := by
  obtain ⟨hmax, hc⟩ := h
  cases m with
  | other => exact ⟨hmax, hc⟩
  | rmc dr tr =>
    cases hd : st.thisday <;> simp only [step, hd] <;> exact ⟨hmax, hc⟩
  | gga g =>
    cases hd : st.thisday with
    | none =>
      simp only [step, hd]
      exact ⟨hmax, hc⟩
    | some d =>
      by_cases hfg : st.first_GGA = true
      · by_cases hb : g.time < st.prev_time
        · simp only [step, hd, hfg, if_true, hb]
          exact ⟨hmax, hc⟩
        · by_cases hfwd : g.time - st.prev_time > NEAR_DAYLENGTH
          · simp only [step, hd, hfg, if_true, hb, if_false, hfwd]
            exact ⟨hmax, hc⟩
          · simp only [step, hd, hfg, if_true, hb, if_false, hfwd]
            exact processTime_inv geo _ d g ⟨hmax, hc⟩
      · simp only [step, hd, hfg]
        exact processTime_inv geo st d g ⟨hmax, hc⟩

theorem foldl_step_inv (geo : Geo) (msgs : List Msg) (st : RState) (h : Inv st) :
    Inv (msgs.foldl (step geo) st) := by
  induction msgs generalizing st with
  | nil => exact h
  | cons m ms ih => exact ih (step geo st m) (step_inv geo st m h)

theorem reader_inv (geo : Geo) (msgs : List Msg) : Inv (reader geo msgs) := by
  unfold reader
  refine foldl_step_inv geo msgs RState.init ⟨?_, ?_⟩
  · simp [RState.init, Stack.new, MAXSTACK]
  · simp [Conserved, RState.init, Stack.new]

/-- C2: for every cluster state (of positive capacity, as the Tracker
always constructs, and with the `_first` field consistent with the member
list) and every incoming fix, `Stack.it_fits` returns false and does not
add the fix exactly when the cluster is full, or is non-empty with a
quality mismatch against the first member, a first-timestamp gap of more
than 90 minutes, or a centroid distance (planar, falling back to haversine
above 50 m) beyond the jiggle threshold; otherwise the fix is appended and
true is returned, and a fix offered to an empty cluster is unconditionally
accepted. -/
theorem C2_accept_characterization (geo : Geo) (s : Stack) (f : Fix)
    (hpos : 0 < s.max_size) (hwf : s.WF) :
    ((s.it_fits geo f).1 = false ↔ s.rejectCond geo f) ∧
      ((s.it_fits geo f).1 = false → (s.it_fits geo f).2.items = s.items) ∧
      ((s.it_fits geo f).1 = true → (s.it_fits geo f).2.items = s.items ++ [f]) ∧
      (s.items = [] → (s.it_fits geo f).1 = true) :=
  ⟨Stack.it_fits_false_iff geo s f hwf,
    fun h => (Stack.it_fits_false_frame geo s f h).1,
    fun h => Stack.it_fits_true_items geo s f h,
    fun h0 => Stack.it_fits_empty_true geo s f h0 hpos⟩

/-- Witness for C2: a one-member quality-1 cluster offered a quality-0
fix. -/
theorem C2_witness :
    (0 < stackOne.max_size ∧ stackOne.WF) ∧
      (((stackOne.it_fits geo0 fix0).1 = false ↔ stackOne.rejectCond geo0 fix0) ∧
        ((stackOne.it_fits geo0 fix0).1 = false →
          (stackOne.it_fits geo0 fix0).2.items = stackOne.items) ∧
        ((stackOne.it_fits geo0 fix0).1 = true →
          (stackOne.it_fits geo0 fix0).2.items = stackOne.items ++ [fix0]) ∧
        (stackOne.items = [] → (stackOne.it_fits geo0 fix0).1 = true)) :=
  ⟨⟨by decide, by rfl⟩, C2_accept_characterization geo0 stackOne fix0 (by decide) (by rfl)⟩

/-- C10: whenever `Stack.it_fits` rejects a fix, the cluster's member
list, bounding box and first-timestamp are all unchanged (only the
`full_count` diagnostic counter may have been bumped by the full check),
so a rejected fix leaves the cluster exactly as it was. -/
theorem C10_reject_frame (geo : Geo) (s : Stack) (f : Fix)
    (h : (s.it_fits geo f).1 = false) :
    (s.it_fits geo f).2.items = s.items ∧
      (s.it_fits geo f).2.box = s.box ∧
      (s.it_fits geo f).2.first = s.first :=
  ⟨(Stack.it_fits_false_frame geo s f h).1,
    (Stack.it_fits_false_frame geo s f h).2.1,
    (Stack.it_fits_false_frame geo s f h).2.2.1⟩

/-- Witness for C10: the quality-mismatch rejection leaves the one-member
cluster untouched. -/
theorem C10_witness :
    ((stackOne.it_fits geo0 fix0).1 = false) ∧
      ((stackOne.it_fits geo0 fix0).2.items = stackOne.items ∧
        (stackOne.it_fits geo0 fix0).2.box = stackOne.box ∧
        (stackOne.it_fits geo0 fix0).2.first = stackOne.first) :=
  ⟨by rfl, C10_reject_frame geo0 stackOne fix0 (by rfl)⟩

/-- C9: computing the representative point (`Stack.median`) of an empty
cluster fails fast — the source raises an IndexError at `self._items[0]`,
modelled by `none` — and on any non-empty cluster it returns a value. -/
theorem C9_median_requires_nonempty (s : Stack) :
    (s.items = [] → s.median = none) ∧
      (s.items ≠ [] → (s.median).isSome = true) := by
  constructor
  · intro h
    exact (Stack.median_none_iff s).mpr h
  · intro h
    cases hm : s.median with
    | none => exact absurd ((Stack.median_none_iff s).mp hm) h
    | some r => rfl

/-- Witness for C9: the fresh stack has no median; the three-member stack
has one. -/
theorem C9_witness :
    ((Stack.new MAXSTACK).items = [] → (Stack.new MAXSTACK).median = none) ∧
      ((Stack.new MAXSTACK).items = [] ∧ stackTri.items ≠ []) ∧
      ((stackTri.median).isSome = true) :=
  ⟨(C9_median_requires_nonempty (Stack.new MAXSTACK)).1,
    ⟨by rfl, by simp [stackTri]⟩,
    (C9_median_requires_nonempty stackTri).2 (by simp [stackTri])⟩

/-- C3 (amended): the representative point of a non-empty cluster has
latitude and longitude equal to the unweighted arithmetic mean of the
members rounded to 6 decimal places, altitude the mean rounded to 1
decimal place, timestamp the last member's, quality the first member's,
and HDOP the maximum HDOP among the members (assuming, as for real HDOP
values, that they are non-negative). -/
theorem C3_median_spec (s : Stack) (h : s.items ≠ [])
    (hh : ∀ i ∈ s.items, 0 ≤ i.msg.HDOP) :
    (s.median).map Rep.lat
        = some (roundTo 6 ((s.items.map fun i => i.msg.lat).sum / (s.items.length : ℚ))) ∧
      (s.median).map Rep.lon
        = some (roundTo 6 ((s.items.map fun i => i.msg.lon).sum / (s.items.length : ℚ))) ∧
      (s.median).map Rep.alt
        = some (roundTo 1 ((s.items.map fun i => i.msg.alt).sum / (s.items.length : ℚ))) ∧
      (s.median).map Rep.dat = (s.items.getLast?).map Fix.dat ∧
      (s.median).map Rep.quality = (s.items.head?).map (fun i => i.msg.quality) ∧
      (s.median).map Rep.hdop = some ((s.items.map fun i => i.msg.HDOP).foldl max 0) ∧
      ((s.items.map fun i => i.msg.HDOP).foldl max 0 ∈ s.items.map fun i => i.msg.HDOP) ∧
      (∀ i ∈ s.items, i.msg.HDOP ≤ (s.items.map fun i => i.msg.HDOP).foldl max 0) := by
  obtain ⟨fm, tl, hitems⟩ : ∃ fm tl, s.items = fm :: tl := by
    cases hi : s.items with
    | nil => exact absurd hi h
    | cons a b => exact ⟨a, b, rfl⟩
  have hmem : ∀ x ∈ (s.items.map fun i => i.msg.HDOP), 0 ≤ x := by
    intro x hx
    obtain ⟨i, hi, rfl⟩ := List.mem_map.mp hx
    exact hh i hi
  refine ⟨?_, ?_, ?_, ?_, ?_, ?_, ?_, ?_⟩
  · simp only [Stack.median, hitems, foldl_add_eq, Option.map_some]
    rw [zero_add]
    simp
  · simp only [Stack.median, hitems, foldl_add_eq, Option.map_some]
    rw [zero_add]
    simp
  · simp only [Stack.median, hitems, foldl_add_eq, Option.map_some]
    rw [zero_add]
    simp
  · simp only [Stack.median, hitems, Option.map_some]
    rw [List.getLast?_eq_getLast (fm :: tl) (List.cons_ne_nil fm tl)]
    simp
  · simp only [Stack.median, hitems, Option.map_some, List.head?_cons]
    simp
  · simp only [Stack.median, hitems, foldl_hdop_eq, Option.map_some]
    simp
  · exact hdop_max_mem _ (by simp [hitems]) hmem
  · intro i hi
    exact foldl_max_ge_mem 0 _ _ (List.mem_map_of_mem (fun i => i.msg.HDOP) hi)

/-- Counterexample for C3 as stated: a cluster with member latitudes 0, 0
and 10^-6 produces the representative latitude 0, while the exact
arithmetic mean of the latitudes is 1/3000000 ≠ 0 — the source rounds the
mean to 6 decimal places (`float(f"{lat/num:.6f}")`). -/
theorem C3_counterexample :
    (stackTri.median).map Rep.lat = some 0 ∧
      (stackTri.items.map fun i => i.msg.lat).sum / (stackTri.items.length : ℚ)
        = 1 / 3000000 ∧
      (0 : ℚ) ≠ 1 / 3000000 := by
  refine ⟨?_, ?_, by norm_num⟩
  · norm_num [stackTri, mkFix, Stack.median, roundTo, round_eq]
  · norm_num [stackTri, mkFix]

/-- Witness for C3: the amended statement evaluated on the three-member
cluster. -/
theorem C3_witness :
    (stackTri.items ≠ [] ∧ (∀ i ∈ stackTri.items, 0 ≤ i.msg.HDOP)) ∧
      (stackTri.median).map Rep.lat
        = some (roundTo 6 ((stackTri.items.map fun i => i.msg.lat).sum
            / (stackTri.items.length : ℚ))) :=
  ⟨⟨by simp [stackTri], by norm_num [stackTri, mkFix]⟩,
    (C3_median_spec stackTri (by simp [stackTri]) (by norm_num [stackTri, mkFix])).1⟩

/-- C8 (amended): a fresh BoundingBox has `minlat`, `maxlat` and `minlon`
at sentinel extremes but `maxlon` at 0 (not a −∞ equivalent); still, after
any non-empty sequence of `update` calls the invariant minLat ≤ maxLat
holds and every observed point is contained in the box. -/
theorem C8_bbox_contains (pts : List (ℚ × ℚ)) (h : pts ≠ []) :
    (BoundingBox.scan pts).minlat ≤ (BoundingBox.scan pts).maxlat ∧
      ∀ p ∈ pts, (BoundingBox.scan pts).contains p := by
  have hall := BoundingBox.foldl_update_contains pts BoundingBox.init
  constructor
  · obtain ⟨p, hp⟩ := List.exists_mem_of_ne_nil pts h
    have hc := hall p hp
    exact le_trans hc.1 hc.2.1
  · exact hall

/-- Counterexample for C8 as stated: the constructor sets `_maxlon = 0`,
which is not a −∞-equivalent sentinel — it is not below the in-range
longitude −1, and a fresh box updated with the single point (0, −1)
reports `maxlon = 0` instead of −1. -/
theorem C8_counterexample :
    BoundingBox.init.maxlon = 0 ∧
      ¬ (BoundingBox.init.maxlon ≤ -1) ∧
      (BoundingBox.init.update 0 (-1)).maxlon = 0 := by
  refine ⟨rfl, by norm_num [BoundingBox.init], ?_⟩
  norm_num [BoundingBox.update, BoundingBox.init]

/-- Witness for C8: the amended statement on the one-point list
[(0, −1)]. -/
theorem C8_witness :
    ([((0 : ℚ), (-1 : ℚ))] ≠ []) ∧
      (BoundingBox.scan [((0 : ℚ), (-1 : ℚ))]).minlat
        ≤ (BoundingBox.scan [((0 : ℚ), (-1 : ℚ))]).maxlat :=
  ⟨by simp, (C8_bbox_contains [((0 : ℚ), (-1 : ℚ))] (by simp)).1⟩

/-- C1 (amended): for every input stream, the list of fixes accepted into
the cluster is exactly the concatenation of the member lists of the
emitted flushes followed by the members of the final (never-flushed)
cluster: each accepted fix contributes to the average of exactly one
emitted point, or to no point at all when it sits in the cluster at end of
stream — the source performs no flush at EOF. -/
theorem C1_accepted_partition (geo : Geo) (msgs : List Msg) :
    Conserved (reader geo msgs) :=
  (reader_inv geo msgs).2

/-- Counterexample for C1 as stated: after the two-sentence stream
`msgsEof` the reader has emitted no track point while one accepted fix is
still sitting in the cluster — the final non-empty cluster is not flushed
at end of stream and its fix contributes to no emitted point. -/
theorem C1_counterexample :
    (reader geo0 msgsEof).flushes = [] ∧
      (reader geo0 msgsEof).gpsstack.items.length = 1 := by
  constructor <;>
    norm_num [reader, msgsEof, gg, step, processTime, acceptFix, Stack.it_fits,
      Stack.is_full_eff, Stack.push, Stack.centroid_dist, Stack.median, BoundingBox.update,
      BoundingBox.centroid, RState.init, Stack.new, BoundingBox.init, JIGGLE, STACK_MINUTES,
      MAXSTACK, MIDNIGHT, NEAR_DAYLENGTH, ONE_MINUTE, EIGHT_MINUTES, geo0]

/-- C4 (amended): a time-bearing fix processed with the first-GGA
suspicion flag clear whose time of day is backward of the last accepted
time by at least eight minutes increments the held date by exactly one day
and is accepted under the new date.  In the specification's rollover
stream (23:59:50 date-bearing, then 23:59:58, 00:00:05, 00:00:12), the
second sentence is instead discarded by the first-GGA forward check
(`prev_time` still holds its initial midnight value), and the remaining
fixes are accepted with no backward jump, so the held date never
increments. -/
theorem C4_rollover :
    (∀ (geo : Geo) (st : RState) (d : Int) (g : GgaData),
      st.thisday = some d → st.first_GGA = false →
      g.time < st.prev_time → EIGHT_MINUTES ≤ st.prev_time - g.time →
      (step geo st (Msg.gga g)).thisday = some (d + 1) ∧
        (step geo st (Msg.gga g)).accepted
          = st.accepted ++ [{ msg := g, dat := (d + 1) * 86400 + g.time }] ∧
        (step geo st (Msg.gga g)).prev_time = g.time) ∧
      (reader geo0 msgsRoll).thisday = some 100 ∧
      (reader geo0 msgsRoll).stash = [Msg.gga (gg 86398)] ∧
      (reader geo0 msgsRoll).accepted.map Fix.dat = [8640005, 8640012] := by
  refine ⟨?_, ?_, ?_, ?_⟩
  · intro geo st d g h1 h2 h3 h4
    have hs : step geo st (Msg.gga g) = processTime geo st d g := by
      simp [step, h1, h2]
    rw [hs, processTime_rollover geo st d g h3 h4]
    obtain ⟨ht, hp, _, _, ha⟩ :=
      acceptFix_fields geo { st with thisday := some (d + 1) } (d + 1) g
    exact ⟨ht, ha, hp⟩
  all_goals
    norm_num [reader, msgsRoll, gg, step, processTime, acceptFix, Stack.it_fits,
      Stack.is_full_eff, Stack.push, Stack.centroid_dist, Stack.median, BoundingBox.update,
      BoundingBox.centroid, RState.init, Stack.new, BoundingBox.init, JIGGLE, STACK_MINUTES,
      MAXSTACK, MIDNIGHT, NEAR_DAYLENGTH, ONE_MINUTE, EIGHT_MINUTES, geo0]

/-- Counterexample for C4 as stated: on the specification's rollover
stream the resolved calendar day of every accepted fix is 100 and the held
date finishes at 100 — it never increments to 101, so the date does not
increment exactly once between the 2nd and 3rd fixes. -/
theorem C4_counterexample :
    (reader geo0 msgsRoll).accepted.map (fun f => f.dat / 86400) = [100, 100] ∧
      (reader geo0 msgsRoll).thisday ≠ some 101 := by
  constructor <;>
    norm_num [reader, msgsRoll, gg, step, processTime, acceptFix, Stack.it_fits,
      Stack.is_full_eff, Stack.push, Stack.centroid_dist, Stack.median, BoundingBox.update,
      BoundingBox.centroid, RState.init, Stack.new, BoundingBox.init, JIGGLE, STACK_MINUTES,
      MAXSTACK, MIDNIGHT, NEAR_DAYLENGTH, ONE_MINUTE, EIGHT_MINUTES, geo0]

/-- Witness for C4: the general rollover rule applied to the mid-stream
state `stW` (day 5, 11:06:40) and a fix at 08:20:00, 10000 seconds
backward. -/
theorem C4_witness :
    (stW.thisday = some 5 ∧ stW.first_GGA = false ∧
        (gg 30000).time < stW.prev_time ∧
        EIGHT_MINUTES ≤ stW.prev_time - (gg 30000).time) ∧
      ((step geo0 stW (Msg.gga (gg 30000))).thisday = some 6 ∧
        (step geo0 stW (Msg.gga (gg 30000))).accepted
          = stW.accepted ++ [{ msg := gg 30000, dat := 548400 }] ∧
        (step geo0 stW (Msg.gga (gg 30000))).prev_time = (gg 30000).time) :=
  ⟨⟨rfl, rfl, by decide, by decide⟩,
    C4_rollover.1 geo0 stW 5 (gg 30000) rfl rfl (by decide) (by decide)⟩

/-- C5: a time-bearing fix whose time of day is backward of the last
accepted time by less than the grace windows (under one minute, or under
eight minutes) is discarded — stashed — with the held date, the cluster,
the emitted flushes, the reference time and the accepted history all
unchanged; and the single 30-second backward jump in `msgsGrace` causes
exactly one discarded sentence and zero date increments. -/
theorem C5_grace_window_discard :
    (∀ (geo : Geo) (st : RState) (d : Int) (g : GgaData),
      st.thisday = some d → g.time < st.prev_time →
      st.prev_time - g.time < EIGHT_MINUTES →
      (step geo st (Msg.gga g)).stash = st.stash ++ [Msg.gga g] ∧
        (step geo st (Msg.gga g)).thisday = some d ∧
        (step geo st (Msg.gga g)).gpsstack = st.gpsstack ∧
        (step geo st (Msg.gga g)).flushes = st.flushes ∧
        (step geo st (Msg.gga g)).prev_time = st.prev_time ∧
        (step geo st (Msg.gga g)).accepted = st.accepted) ∧
      (reader geo0 msgsGrace).stash = [Msg.gga (gg 36030)] ∧
      (reader geo0 msgsGrace).thisday = some 100 ∧
      (reader geo0 msgsGrace).accepted.length = 3 ∧
      (reader geo0 msgsGrace).flushes = [] := by
  refine ⟨?_, ?_, ?_, ?_, ?_⟩
  · intro geo st d g h1 h2 h3
    by_cases hfg : st.first_GGA = true
    · have hs : step geo st (Msg.gga g)
          = { st with first_GGA := false, stash := st.stash ++ [Msg.gga g] } := by
        simp [step, h1, hfg, h2]
      rw [hs]
      exact ⟨rfl, h1, rfl, rfl, rfl, rfl⟩
    · have hs : step geo st (Msg.gga g) = processTime geo st d g := by
        simp [step, h1, hfg]
      rw [hs, processTime_backward_small geo st d g h2 h3]
      exact ⟨rfl, h1, rfl, rfl, rfl, rfl⟩
  all_goals
    norm_num [reader, msgsGrace, gg, step, processTime, acceptFix, Stack.it_fits,
      Stack.is_full_eff, Stack.push, Stack.centroid_dist, Stack.median, BoundingBox.update,
      BoundingBox.centroid, RState.init, Stack.new, BoundingBox.init, JIGGLE, STACK_MINUTES,
      MAXSTACK, MIDNIGHT, NEAR_DAYLENGTH, ONE_MINUTE, EIGHT_MINUTES, geo0]

/-- Witness for C5: the grace-window rule applied to `stW` (11:06:40) and
a fix 20 seconds backward. -/
theorem C5_witness :
    (stW.thisday = some 5 ∧ (gg 39980).time < stW.prev_time ∧
        stW.prev_time - (gg 39980).time < EIGHT_MINUTES) ∧
      ((step geo0 stW (Msg.gga (gg 39980))).stash = stW.stash ++ [Msg.gga (gg 39980)] ∧
        (step geo0 stW (Msg.gga (gg 39980))).thisday = some 5 ∧
        (step geo0 stW (Msg.gga (gg 39980))).gpsstack = stW.gpsstack ∧
        (step geo0 stW (Msg.gga (gg 39980))).flushes = stW.flushes ∧
        (step geo0 stW (Msg.gga (gg 39980))).prev_time = stW.prev_time ∧
        (step geo0 stW (Msg.gga (gg 39980))).accepted = stW.accepted) :=
  ⟨⟨rfl, by decide, by decide⟩,
    C5_grace_window_discard.1 geo0 stW 5 (gg 39980) rfl (by decide) (by decide)⟩

/-- C6 (amended): the first time-bearing sentence after a date-bearing
sentence is discarded exactly when its time of day is strictly earlier
than `prev_time` — the time of the last accepted fix, initially midnight,
never the RMC's own time — by any amount, or later than `prev_time` by
more than 23 hours; otherwise it is accepted. -/
theorem C6_first_gga_skip :
    ∀ (geo : Geo) (st : RState) (d : Int) (g : GgaData),
      st.thisday = some d → st.first_GGA = true →
      ((g.time < st.prev_time ∨ g.time - st.prev_time > NEAR_DAYLENGTH) →
        (step geo st (Msg.gga g)).stash = st.stash ++ [Msg.gga g] ∧
          (step geo st (Msg.gga g)).gpsstack = st.gpsstack ∧
          (step geo st (Msg.gga g)).thisday = some d ∧
          (step geo st (Msg.gga g)).accepted = st.accepted) ∧
      (¬ (g.time < st.prev_time ∨ g.time - st.prev_time > NEAR_DAYLENGTH) →
        (step geo st (Msg.gga g)).stash = st.stash ∧
          (step geo st (Msg.gga g)).accepted
            = st.accepted ++ [{ msg := g, dat := d * 86400 + g.time }]) := by
  intro geo st d g h1 hfg
  constructor
  · intro hcond
    by_cases hb : g.time < st.prev_time
    · have hs : step geo st (Msg.gga g)
          = { st with first_GGA := false, stash := st.stash ++ [Msg.gga g] } := by
        simp [step, h1, hfg, hb]
      rw [hs]
      exact ⟨rfl, rfl, h1, rfl⟩
    · have hf : g.time - st.prev_time > NEAR_DAYLENGTH := hcond.resolve_left hb
      have hs : step geo st (Msg.gga g)
          = { st with first_GGA := false, stash := st.stash ++ [Msg.gga g] } := by
        simp [step, h1, hfg, hb, hf]
      rw [hs]
      exact ⟨rfl, rfl, h1, rfl⟩
  · intro hcond
    obtain ⟨hb, hf⟩ := not_or.mp hcond
    have hs : step geo st (Msg.gga g)
        = processTime geo { st with first_GGA := false } d g := by
      simp [step, h1, hfg, hb, hf]
    rw [hs, processTime_forward geo { st with first_GGA := false } d g hb]
    obtain ⟨_, _, _, hstash, ha⟩ :=
      acceptFix_fields geo { st with first_GGA := false } d g
    exact ⟨hstash, ha⟩

/-- Counterexample for C6 as stated: in `msgsSkew` the first GGA
(12:00:00) follows an RMC whose own clock reads 23:30:00, i.e. it is
backward of the date sentence's time by 41400 seconds — far beyond any
grace window — yet nothing is stashed and the fix is accepted: the code
compares against the last accepted fix time (initially midnight), not the
RMC's own time. -/
theorem C6_counterexample :
    ((84600 : Int) - 43200 > EIGHT_MINUTES) ∧
      (reader geo0 msgsSkew).stash = [] ∧
      (reader geo0 msgsSkew).accepted.map Fix.dat = [8683200] := by
  refine ⟨by norm_num [EIGHT_MINUTES], ?_, ?_⟩ <;>
    norm_num [reader, msgsSkew, gg, step, processTime, acceptFix, Stack.it_fits,
      Stack.is_full_eff, Stack.push, Stack.centroid_dist, Stack.median, BoundingBox.update,
      BoundingBox.centroid, RState.init, Stack.new, BoundingBox.init, JIGGLE, STACK_MINUTES,
      MAXSTACK, MIDNIGHT, NEAR_DAYLENGTH, ONE_MINUTE, EIGHT_MINUTES, geo0]

/-- Witness for C6: the amended rule applied to `stV` (flag set,
11:06:40) and a first GGA at 08:20:00, backward of `prev_time`. -/
theorem C6_witness :
    (stV.thisday = some 5 ∧ stV.first_GGA = true ∧
        ((gg 30000).time < stV.prev_time ∨
          (gg 30000).time - stV.prev_time > NEAR_DAYLENGTH)) ∧
      ((step geo0 stV (Msg.gga (gg 30000))).stash = stV.stash ++ [Msg.gga (gg 30000)] ∧
        (step geo0 stV (Msg.gga (gg 30000))).gpsstack = stV.gpsstack ∧
        (step geo0 stV (Msg.gga (gg 30000))).thisday = some 5 ∧
        (step geo0 stV (Msg.gga (gg 30000))).accepted = stV.accepted) :=
  ⟨⟨rfl, rfl, Or.inl (by decide)⟩,
    (C6_first_gga_skip geo0 stV 5 (gg 30000) rfl rfl).1 (Or.inl (by decide))⟩

/-- C7 (amended): once a date is held, a later date-bearing sentence never
updates it, whatever date it reports — the source only logs the
discrepancy (deliberately, to avoid double-incrementing together with the
GGA-driven rollover) and sets the first-GGA suspicion flag; the held date
advances only through rollover inference. -/
theorem C7_held_date_never_updated :
    ∀ (geo : Geo) (st : RState) (dr tr d : Int), st.thisday = some d →
      (step geo st (Msg.rmc dr tr)).thisday = some d ∧
        (step geo st (Msg.rmc dr tr)).first_GGA = true ∧
        (step geo st (Msg.rmc dr tr)).gpsstack = st.gpsstack ∧
        (step geo st (Msg.rmc dr tr)).flushes = st.flushes ∧
        (step geo st (Msg.rmc dr tr)).accepted = st.accepted ∧
        (step geo st (Msg.rmc dr tr)).stash = st.stash := by
  intro geo st dr tr d h1
  have hs : step geo st (Msg.rmc dr tr) = { st with first_GGA := true } := by
    simp [step, h1]
  rw [hs]
  exact ⟨h1, rfl, rfl, rfl, rfl, rfl⟩

/-- Counterexample for C7 as stated: in `msgsNewDate` a second RMC reports
day 101 while day 100 is held and no rollover has been inferred (all times
increase), yet the held date finishes at 100, not 101 — the update the
claim requires never happens. -/
theorem C7_counterexample :
    (reader geo0 msgsNewDate).thisday = some 100 ∧
      (reader geo0 msgsNewDate).thisday ≠ some 101 := by
  have h : (reader geo0 msgsNewDate).thisday = some 100 := by
    norm_num [reader, msgsNewDate, gg, step, processTime, acceptFix, Stack.it_fits,
      Stack.is_full_eff, Stack.push, Stack.centroid_dist, Stack.median, BoundingBox.update,
      BoundingBox.centroid, RState.init, Stack.new, BoundingBox.init, JIGGLE, STACK_MINUTES,
      MAXSTACK, MIDNIGHT, NEAR_DAYLENGTH, ONE_MINUTE, EIGHT_MINUTES, geo0]
  refine ⟨h, ?_⟩
  rw [h]
  simp

/-- Witness for C7: a date-bearing sentence reporting day 101 leaves the
held day 5 of `stW` unchanged. -/
theorem C7_witness :
    (stW.thisday = some 5) ∧
      ((step geo0 stW (Msg.rmc 101 36020)).thisday = some 5 ∧
        (step geo0 stW (Msg.rmc 101 36020)).first_GGA = true ∧
        (step geo0 stW (Msg.rmc 101 36020)).gpsstack = stW.gpsstack ∧
        (step geo0 stW (Msg.rmc 101 36020)).flushes = stW.flushes ∧
        (step geo0 stW (Msg.rmc 101 36020)).accepted = stW.accepted ∧
        (step geo0 stW (Msg.rmc 101 36020)).stash = stW.stash) :=
  ⟨rfl, C7_held_date_never_updated geo0 stW 101 36020 5 rfl⟩

end NmeaGpx
